import Mathlib

/-!
# Verification of the runtime DOM element-mapping engine

A shallow embedding, in Lean 4, of the element-analysis utilities
(`isElementVisible`, `isElementInteractable`, `generateTargetId`,
`determineInteractionType`, `computeElementPath`, `getElementAttributes`,
`getElementPosition`) and of the `ComponentMapManager` class
(`captureInteractiveElements`, `fetchComponentMap`, `updateComponentMap`,
`hasUrlChanged`, `setupNavigationMonitoring`) of the next-ai-optimizer
repository, together with theorems settling the frozen claims about them.

DOM nodes are modelled as records carrying exactly the fields the source
reads; the browser environment (viewport size, `document.elementFromPoint`,
containment between nodes, scroll offsets, whether `window` exists) is an
explicit parameter.  JavaScript `null`-able attribute reads are `Option
String`; JS truthiness of such a value is "present and non-empty".
-/

/-- JS truthiness of a `getAttribute` result (`null` and `""` are falsy). -/
def jsTruthy : Option String → Bool
  | none => false
  | some s => s ≠ ""

/-- `x || undefined` / `x || null` on an attribute read: falsy collapses to `none`. -/
def jsOrNone (o : Option String) : Option String :=
  if jsTruthy o then o else none

/-- `toLowerCase()`: lower-case every character. -/
def jsToLower (s : String) : String :=
  ⟨s.data.map Char.toLower⟩

/-- Drop the leading whitespace run of a character list. -/
def dropLeadingWs : List Char → List Char
  | [] => []
  | c :: rest => if c.isWhitespace then dropLeadingWs rest else c :: rest

/-- `trim()`: strip leading and trailing whitespace. -/
def jsTrim (s : String) : String :=
  ⟨(dropLeadingWs (dropLeadingWs s.data).reverse).reverse⟩

/-- `split` on whitespace followed by `filter(Boolean)`: the maximal
non-whitespace runs of a character list, in order. -/
def wsTokens : List Char → List String
  | [] => []
  | [c] => if c.isWhitespace then [] else [String.singleton c]
  | a :: b :: rest =>
    if a.isWhitespace then wsTokens (b :: rest)
    else if b.isWhitespace then String.singleton a :: wsTokens (b :: rest)
    else
      match wsTokens (b :: rest) with
      | [] => [String.singleton a]
      | t :: ts => (String.singleton a ++ t) :: ts

/-! ## String normalization used by `generateTargetId`

The source applies, in order, the whitespace-run-to-hyphen replacement +
`toLowerCase()` on some branches, then always: replace every character
outside `[a-z0-9-_]` (case-insensitive) with a hyphen, collapse runs of two
or more hyphens, trim one leading and one trailing hyphen. -/

/-- `replace(/\s+/g, '-')`: each maximal whitespace run becomes one hyphen. -/
def wsToHyphens : List Char → List Char
  | [] => []
  | [c] => if c.isWhitespace then ['-'] else [c]
  | a :: b :: rest =>
    if a.isWhitespace then
      if b.isWhitespace then wsToHyphens (b :: rest)
      else '-' :: wsToHyphens (b :: rest)
    else a :: wsToHyphens (b :: rest)

/-- `s.replace(/\s+/g, '-').toLowerCase()` (the aria-label / placeholder / text branches). -/
def normWsLower (s : String) : String :=
  jsToLower ⟨wsToHyphens s.data⟩

/-- A character matching `[a-z0-9-_]` with the `i` flag, i.e. kept by
`replace(/[^a-z0-9-_]/gi, '-')`.  Uppercase letters are kept. -/
def allowedChar (c : Char) : Bool :=
  ('a' ≤ c && c ≤ 'z') || ('A' ≤ c && c ≤ 'Z') || ('0' ≤ c && c ≤ '9') || c = '-' || c = '_'

/-- `replace(/[^a-z0-9-_]/gi, '-')`: every non-matching character becomes a hyphen. -/
def mapDisallowed (l : List Char) : List Char :=
  l.map fun c => if allowedChar c then c else '-'

/-- The hyphen-run collapse: every run of two or more hyphens becomes one. -/
def collapseHyphens : List Char → List Char
  | [] => []
  | [c] => [c]
  | a :: b :: rest =>
    if a = '-' && b = '-' then collapseHyphens (b :: rest)
    else a :: collapseHyphens (b :: rest)

/-- The leading half of the hyphen trim: drop one leading hyphen. -/
def dropLeadHyphen : List Char → List Char
  | [] => []
  | c :: rest => if c = '-' then rest else c :: rest

/-- The trailing half of the hyphen trim: drop one trailing hyphen. -/
def dropTrailHyphen : List Char → List Char
  | [] => []
  | [c] => if c = '-' then [] else [c]
  | c :: d :: rest => c :: dropTrailHyphen (d :: rest)

/-- The unconditional cleanup chain of `generateTargetId` (lines 104-106 of the
element utilities): hyphenate disallowed characters, collapse hyphen runs,
trim one leading and one trailing hyphen. -/
def cleanChars (l : List Char) : List Char :=
  dropTrailHyphen (dropLeadHyphen (collapseHyphens (mapDisallowed l)))

/-- String form of `cleanChars`. -/
def cleanId (s : String) : String :=
  ⟨cleanChars s.data⟩

/-! ## `generateTargetId` -/

/-- The fields of a DOM node read by `generateTargetId`.  `id` is the string
property (empty when absent); attribute reads are `Option String`;
`randSuffix` stands for `Math.random().toString(36).substring(2, 8)`,
supplied by the environment. -/
structure GNode where
  textContent : Option String
  id : String
  ariaLabel : Option String
  placeholder : Option String
  nameAttr : Option String
  dataTestId : Option String
  tagName : String
  randSuffix : String
deriving DecidableEq

/-- `element.textContent?.trim()`. -/
def trimmedText (n : GNode) : Option String :=
  n.textContent.map jsTrim

/-- The `baseId` selection of `generateTargetId` (lines 94-101): first-match-wins
over id, data-testid, aria-label, name, placeholder, short text content,
then the random tag-based fallback. -/
def baseIdOf (n : GNode) : String :=
  if n.id ≠ "" then n.id
  else if jsTruthy n.dataTestId then n.dataTestId.getD ""
  else if jsTruthy n.ariaLabel then normWsLower (n.ariaLabel.getD "")
  else if jsTruthy n.nameAttr then n.nameAttr.getD ""
  else if jsTruthy n.placeholder then normWsLower (n.placeholder.getD "")
  else if jsTruthy (trimmedText n) ∧ ((trimmedText n).getD "").length < 20 then
    normWsLower ((trimmedText n).getD "")
  else jsToLower n.tagName ++ "-" ++ n.randSuffix

/-- `generateTargetId` (element utilities, lines 84-109). -/
def generateTargetId (n : GNode) : String :=
  "ai-target-" ++ cleanId (baseIdOf n)

/-! ## Visibility and interactability classifiers -/

/-- `getBoundingClientRect()` result. -/
structure Rect where
  top : Rat
  left : Rat
  bottom : Rat
  right : Rat
  width : Rat
  height : Rat
deriving DecidableEq

/-- The fields of a DOM node read by `isElementVisible` /
`isElementInteractable`: computed style, bounding rect, disabled state.
`nodeId` identifies the node for the `elementFromPoint` occlusion test;
`opacityNum` is `parseFloat(style.opacity)` (`none` encodes `NaN`). -/
structure VisElem where
  nodeId : Nat
  display : String
  visibilityStyle : String
  opacityStr : String
  opacityNum : Option Rat
  pointerEvents : String
  rect : Rect
  disabledProp : Bool
  ariaDisabled : Option String
  disabledAttr : Option String
deriving DecidableEq

/-- The browser environment: viewport and scroll geometry,
`document.elementFromPoint`, DOM containment between node ids, and whether
`window` exists at all. -/
structure DomEnv where
  windowDefined : Bool
  innerWidth : Rat
  innerHeight : Rat
  scrollX : Rat
  scrollY : Rat
  elementFromPoint : Rat → Rat → Option Nat
  contains : Nat → Nat → Bool

/-- `isElementVisible` (element utilities, lines 11-53). -/
def isElementVisible (env : DomEnv) : Option VisElem → Bool
  | none => false
  | some e =>
    if e.display = "none" ∨ e.visibilityStyle = "hidden" ∨ e.opacityStr = "0" ∨
        e.opacityNum = some 0 ∨ e.rect.width = 0 ∨ e.rect.height = 0 then
      false
    else
      let isInViewport :=
        decide (e.rect.top < env.innerHeight) && decide (e.rect.left < env.innerWidth) &&
        decide ((0 : Rat) < e.rect.bottom) && decide ((0 : Rat) < e.rect.right)
      if !isInViewport then false
      else
        match env.elementFromPoint (e.rect.left + e.rect.width / 2)
            (e.rect.top + e.rect.height / 2) with
        | none => false
        | some m => decide (e.nodeId = m) || env.contains e.nodeId m || env.contains m e.nodeId

/-- `isElementInteractable` (element utilities, lines 60-77). -/
def isElementInteractable (env : DomEnv) : Option VisElem → Bool
  | none => false
  | some e =>
    if !(isElementVisible env (some e)) then false
    else if e.disabledProp ∨ e.pointerEvents = "none" ∨ e.ariaDisabled = some "true" ∨
        e.disabledAttr ≠ none then
      false
    else true

/-! ## `determineInteractionType` -/

/-- The fields of a DOM node read by `determineInteractionType`. -/
structure ITNode where
  tagName : String
  typeAttr : Option String
  roleAttr : Option String
  hasOnclickLower : Bool
  hasOnclickCamel : Bool
  cursor : String
deriving DecidableEq

/-- `determineInteractionType` (element utilities, lines 116-184). -/
def determineInteractionType (e : ITNode) : String :=
  let tagName := jsToLower e.tagName
  let ty := e.typeAttr.map jsToLower
  if tagName = "button" ∨ tagName = "a" ∨ tagName = "summary" ∨ tagName = "details" then
    "click"
  else if tagName = "input" then
    if ty = some "checkbox" ∨ ty = some "radio" then "click"
    else if ty = some "submit" ∨ ty = some "button" ∨ ty = some "reset" ∨ ty = some "image" then
      "click"
    else if ty = some "file" then "upload"
    else if ty = some "range" then "range"
    else if ty = some "color" then "color"
    else if ty = some "date" ∨ ty = some "datetime-local" ∨ ty = some "month" ∨
        ty = some "time" ∨ ty = some "week" then "date"
    else "input"
  else if tagName = "select" then "select"
  else if tagName = "textarea" then "input"
  else if tagName = "option" then "select"
  else if tagName = "label" then "click"
  else
    let role := e.roleAttr.map jsToLower
    if role = some "button" ∨ role = some "link" then "click"
    else if role = some "checkbox" ∨ role = some "radio" ∨ role = some "switch" then "click"
    else if role = some "textbox" ∨ role = some "searchbox" then "input"
    else if role = some "listbox" ∨ role = some "combobox" then "select"
    else if role = some "slider" then "range"
    else if e.hasOnclickLower ∨ e.hasOnclickCamel then "click"
    else if e.cursor = "pointer" then "click"
    else "interact"

/-! ## `computeElementPath` -/

/-- One node on the ancestor chain walked by `computeElementPath`: the fields
its selector is built from.  `className` is `none` when absent or not a
string; `sameTagCount` / `sameTagIndex` are the number of same-tag children
of the parent and this node's 1-based index among them. -/
structure DomNode where
  tagName : String
  id : String
  className : Option String
  roleAttr : Option String
  sameTagCount : Nat
  sameTagIndex : Nat
deriving DecidableEq

/-- The terminating selector `tag#id` used when a node has a non-empty id. -/
def selIdOf (n : DomNode) : String :=
  jsToLower n.tagName ++ "#" ++ n.id

/-- The `.class1.class2...` suffix (lines 206-211). -/
def classSel (n : DomNode) : String :=
  match n.className with
  | none => ""
  | some s =>
    if s ≠ "" then
      let classNames := wsTokens s.data
      if classNames.length > 0 then "." ++ String.intercalate "." classNames else ""
    else ""

/-- The `[role="..."]` suffix (lines 214-217). -/
def roleSel (n : DomNode) : String :=
  match n.roleAttr with
  | none => ""
  | some r => if r ≠ "" then "[role=\"" ++ r ++ "\"]" else ""

/-- The `:nth-child(k)` suffix, added when more than one same-tag sibling
exists (lines 220-226). -/
def nthSel (n : DomNode) : String :=
  if n.sameTagCount > 1 then ":nth-child(" ++ toString n.sameTagIndex ++ ")" else ""

/-- The selector written for a node without an id. -/
def plainSel (n : DomNode) : String :=
  jsToLower n.tagName ++ classSel n ++ roleSel n ++ nthSel n

/-- The list of selectors built by the `while` loop of `computeElementPath`
(lines 191-233), outermost first.  The input list is the chain from the node
itself upward, ending where the loop guard would stop (body / document /
null); a non-empty id terminates the walk. -/
def computePathList : List DomNode → List String
  | [] => []
  | n :: rest =>
    if n.id ≠ "" then [selIdOf n]
    else computePathList rest ++ [plainSel n]

/-- `computeElementPath`: the selectors joined by " > ". -/
def computeElementPath (chain : List DomNode) : String :=
  String.intercalate " > " (computePathList chain)

/-! ## `getElementAttributes` and `getElementPosition` -/

/-- A value stored in the attributes snapshot: raw attribute strings, plus the
boolean `checked` property copied for checkbox/radio inputs. -/
inductive AttrVal
  | str (s : String)
  | bool (b : Bool)
deriving DecidableEq

/-- JS object property assignment on a string-keyed record: overwrite in place
if the key exists, else append (JS objects keep insertion order). -/
def setKey {α : Type} : List (String × α) → String → α → List (String × α)
  | [], k, v => [(k, v)]
  | (k', v') :: rest, k, v =>
    if k' = k then (k', v) :: rest else (k', v') :: setKey rest k v

/-- The fields of a DOM node read by `getElementAttributes`: the raw attribute
list (`element.attributes`, document order) and the live form-control
properties. `tagName` is the DOM-uppercase tag. -/
structure AttrView where
  tagName : String
  attrList : List (String × String)
  valueProp : String
  typeProp : String
  checkedProp : Bool
deriving DecidableEq

/-- `getElementAttributes` (element utilities, lines 240-265). -/
def getElementAttributes (a : AttrView) : List (String × AttrVal) :=
  let attributes := a.attrList.foldl (fun m kv => setKey m kv.1 (AttrVal.str kv.2)) []
  if a.tagName = "INPUT" ∨ a.tagName = "TEXTAREA" ∨ a.tagName = "SELECT" then
    let m := setKey attributes "value" (AttrVal.str a.valueProp)
    if a.typeProp = "checkbox" ∨ a.typeProp = "radio" then
      setKey m "checked" (AttrVal.bool a.checkedProp)
    else m
  else attributes

/-- An output rectangle of `getElementPosition`. -/
structure RectOut where
  top : Rat
  left : Rat
  width : Rat
  height : Rat
  bottom : Rat
  right : Rat
deriving DecidableEq

/-- `calculateVisiblePercentage` (element utilities, lines 307-332). -/
def calculateVisiblePercentage (env : DomEnv) (rect : Rect) : Rat :=
  let elementArea := rect.width * rect.height
  if elementArea = 0 then 0
  else
    let left := max 0 rect.left
    let top := max 0 rect.top
    let right := min env.innerWidth rect.right
    let bottom := min env.innerHeight rect.bottom
    let visibleWidth := max 0 (right - left)
    let visibleHeight := max 0 (bottom - top)
    visibleWidth * visibleHeight / elementArea * 100

/-- The result of `getElementPosition`. -/
structure Position where
  viewport : RectOut
  absolute : RectOut
  centerX : Rat
  centerY : Rat
  visiblePercentage : Rat
deriving DecidableEq

/-- `getElementPosition` (element utilities, lines 272-300). -/
def getElementPosition (env : DomEnv) (rect : Rect) : Position :=
  { viewport :=
      { top := rect.top, left := rect.left, width := rect.width, height := rect.height,
        bottom := rect.bottom, right := rect.right }
    absolute :=
      { top := rect.top + env.scrollY, left := rect.left + env.scrollX,
        width := rect.width, height := rect.height,
        bottom := rect.bottom + env.scrollY, right := rect.right + env.scrollX }
    centerX := rect.left + rect.width / 2
    centerY := rect.top + rect.height / 2
    visiblePercentage := calculateVisiblePercentage env rect }

/-! ## `ComponentMapManager.captureInteractiveElements`

A scanned element is one node of the `querySelectorAll` result.  The record
groups the views the per-element pass reads: the visibility fields, the
identity fields, the interaction-type fields, the attribute view, the
ancestor chain, and the pre-existing markers.  Overlapping fields
(`tagName` and friends) are views of the same underlying node. -/

structure CapElem where
  vis : VisElem
  g : GNode
  it : ITNode
  attrView : AttrView
  chain : List DomNode
  dataAiTarget : Option String
  dataAiAction : Option String
  aiComponent : Option String
  className : Option String
  hrefAttr : Option String
deriving DecidableEq

/-- The `aiTarget` key written for a qualifying element (lines 57-61): the
persisted `data-ai-target` marker if truthy, else a fresh `generateTargetId`. -/
def targetKeyOf (e : CapElem) : String :=
  if jsTruthy e.dataAiTarget then e.dataAiTarget.getD "" else generateTargetId e.g

/-- The `aiAction` tag for a qualifying element (lines 64-68). -/
def actionOf (e : CapElem) : String :=
  if jsTruthy e.dataAiAction then e.dataAiAction.getD ""
  else determineInteractionType e.it

/-- The `setAttribute` write-back of freshly generated markers onto the node. -/
def writeBackAttrs (e : CapElem) : CapElem :=
  let e1 := if jsTruthy e.dataAiTarget then e
    else { e with dataAiTarget := some (targetKeyOf e) }
  if jsTruthy e.dataAiAction then e1
  else { e1 with dataAiAction := some (actionOf e) }

/-- One element descriptor as placed in the registry (lines 83-101). -/
structure ElementInfo where
  aiTarget : String
  aiAction : String
  aiComponent : Option String
  tagName : String
  typeAttr : Option String
  idAttr : Option String
  className : Option String
  nameAttr : Option String
  value : Option AttrVal
  href : Option String
  path : String
  content : String
  position : Position
  attributes : List (String × AttrVal)
  visible : Bool
  interactable : Bool
  timestamp : Nat
deriving DecidableEq

/-- The `elementInfo` object built for a qualifying element (lines 70-101). -/
def mkElementInfo (env : DomEnv) (now : Nat) (e : CapElem) : ElementInfo :=
  let attributes := getElementAttributes e.attrView
  { aiTarget := targetKeyOf e
    aiAction := actionOf e
    aiComponent := jsOrNone e.aiComponent
    tagName := jsToLower e.g.tagName
    typeAttr := jsOrNone e.it.typeAttr
    idAttr := if e.g.id ≠ "" then some e.g.id else none
    className := jsOrNone e.className
    nameAttr := jsOrNone e.g.nameAttr
    value := attributes.lookup "value"
    href := jsOrNone e.hrefAttr
    path := computeElementPath e.chain
    content := ((e.g.textContent.map jsTrim).getD "").take 100
    position := getElementPosition env e.vis.rect
    attributes := attributes
    visible := true
    interactable := true
    timestamp := now }

/-- The body of the `elements.forEach` callback (lines 50-105): `none` means
the element was skipped as hidden or non-interactable; otherwise the registry
key, the descriptor, and the node with markers written back. -/
def captureStep (env : DomEnv) (now : Nat) (e : CapElem) :
    Option (String × ElementInfo × CapElem) :=
  if !(isElementVisible env (some e.vis)) || !(isElementInteractable env (some e.vis)) then
    none
  else
    some (targetKeyOf e, mkElementInfo env now e, writeBackAttrs e)

/-- The mutable fields of a `ComponentMapManager` instance touched by the
sync-path methods: the in-flight guard, the registry (a string-keyed JS
object, insertion-ordered), and the last recorded URL. -/
structure CMState where
  isCapturing : Bool
  elementRegistry : List (String × ElementInfo)
  currentUrl : String
deriving DecidableEq

/-- The `forEach` loop over the `querySelectorAll` result, threading the
captured list, the registry, and the mutated DOM. -/
def captureLoop (env : DomEnv) (now : Nat) :
    List CapElem → List ElementInfo → List (String × ElementInfo) → List CapElem →
    List ElementInfo × List (String × ElementInfo) × List CapElem
  | [], capturedElements, registry, domAcc => (capturedElements, registry, domAcc)
  | e :: rest, capturedElements, registry, domAcc =>
    match captureStep env now e with
    | none => captureLoop env now rest capturedElements registry (domAcc ++ [e])
    | some (k, info, e') =>
      captureLoop env now rest (capturedElements ++ [info]) (setKey registry k info)
        (domAcc ++ [e'])

/-- `captureInteractiveElements` (manager, lines 42-109).  Returns the captured
list, the new manager state, and the DOM after marker write-backs.  `dom` is
the `querySelectorAll(this.interactiveSelectors.join(','))` result. -/
def captureInteractiveElements (env : DomEnv) (now : Nat) (dom : List CapElem)
    (st : CMState) : List ElementInfo × CMState × List CapElem :=
  if !env.windowDefined then ([], st, dom)
  else if st.isCapturing then (st.elementRegistry.map Prod.snd, st, dom)
  else
    let r := captureLoop env now dom [] st.elementRegistry []
    (r.1, { st with elementRegistry := r.2.1, isCapturing := false }, r.2.2)

/-- `resetElementRegistry` (manager, lines 216-218). -/
def resetElementRegistry (st : CMState) : CMState :=
  { st with elementRegistry := [] }

/-- `hasUrlChanged` (manager, lines 224-235).  `windowHref` is
`window.location.href`, `none` when `window` is undefined. -/
def hasUrlChanged (windowHref : Option String) (st : CMState) : Bool × CMState :=
  match windowHref with
  | none => (false, st)
  | some href =>
    if st.currentUrl ≠ href then (true, { st with currentUrl := href })
    else (false, st)

/-! ## Sync gateway: `fetchComponentMap` and `updateComponentMap` -/

/-- The component-map JSON document exchanged with the server.  `components`
and `pageContexts` are opaque payloads from the engine's point of view. -/
structure ComponentMap where
  components : List String
  runtimeElements : List ElementInfo
  generatedAt : String
  version : String
  pageContexts : List (String × String)
  currentPath : Option String
deriving DecidableEq

/-- The fallback structure built on any fetch failure (lines 133-139): the
source object has no `currentPath` field. -/
def emptyBaseline (nowIso : String) : ComponentMap :=
  { components := [], runtimeElements := [], generatedAt := nowIso,
    version := "1.0.0", pageContexts := [], currentPath := none }

/-- How the `GET` round trip can end: the network throws, the response is not
ok, the JSON body fails to parse, or a map is delivered. -/
inductive GetOutcome
  | netError
  | httpError (status : Nat)
  | jsonError
  | success (m : ComponentMap)
deriving DecidableEq

/-- How the `POST` round trip can end. -/
inductive PostOutcome
  | netError
  | httpError (status : Nat)
  | success
deriving DecidableEq

/-- `fetchComponentMap` (manager, lines 115-141): every failure path is caught
and converted to the empty baseline; only a parsed ok response is returned. -/
def fetchComponentMap (nowIso : String) : GetOutcome → ComponentMap
  | GetOutcome.success m => m
  | _ => emptyBaseline nowIso

/-- `updateComponentMap` (manager, lines 147-193): capture, fetch the current
map, overlay the fresh `runtimeElements` / `currentPath` / `generatedAt`,
POST, and report success as a boolean.  Returns the boolean, the manager
state, the DOM after capture, and the posted body. -/
def updateComponentMap (env : DomEnv) (now : Nat) (nowIso : String) (path : String)
    (getO : GetOutcome) (postO : PostOutcome) (dom : List CapElem) (st : CMState) :
    Bool × CMState × List CapElem × ComponentMap :=
  let r := captureInteractiveElements env now dom st
  let elements := r.1
  let componentMap := fetchComponentMap nowIso getO
  let updatedMap := { componentMap with
    runtimeElements := elements
    currentPath := some path
    generatedAt := nowIso }
  match postO with
  | PostOutcome.success => (true, r.2.1, r.2.2, updatedMap)
  | _ => (false, r.2.1, r.2.2, updatedMap)

/-! ## Change-detection watcher: mutation filtering and debounce

The `MutationObserver` callback (manager, lines 279-323) first decides
whether the batch qualifies (`shouldUpdate`), then runs a trailing-edge
debounce through `window.aiMapUpdateTimeout` with a 500 ms window. -/

/-- An added node as inspected by the callback: its node type, whether it
matches the interactive selector list, and whether it contains a match. -/
structure AddedNode where
  isElementNode : Bool
  selfMatches : Bool
  containsMatch : Bool
deriving DecidableEq

/-- One `MutationRecord` of a batch as the callback reads it. -/
inductive MutRec
  | childList (addedNodes : List AddedNode)
  | attributes (targetIsElement : Bool) (targetMatches : Bool)
  | other
deriving DecidableEq

/-- Whether one added node sets `shouldUpdate` (lines 284-297). -/
def addedNodeQualifies (n : AddedNode) : Bool :=
  n.isElementNode && (n.selfMatches || n.containsMatch)

/-- The `shouldUpdate` computation over one batch (lines 280-310). -/
def shouldUpdate : List MutRec → Bool
  | [] => false
  | MutRec.childList added :: rest =>
    if added.length > 0 && added.any addedNodeQualifies then true
    else shouldUpdate rest
  | MutRec.attributes isEl m :: rest =>
    if isEl && m then true else shouldUpdate rest
  | MutRec.other :: rest => shouldUpdate rest

/-- The fixed debounce window of the mutation callback (line 321). -/
def debounceWindowMs : Nat := 500

/-- Timer semantics of the debounce (lines 312-322), as a discrete-event run.
`batches` are observer callbacks in time order; `pending` is the fire time
held in `window.aiMapUpdateTimeout`.  A qualifying batch at time `t` clears a
still-pending timer (one whose fire time is after `t`) and schedules a fresh
scan at `t + 500`; a timer that fired before `t` contributes a scan.  The
returned list is the times at which scans run. -/
def debounceScans : List (Nat × List MutRec) → Option Nat → List Nat
  | [], pending =>
    (match pending with
     | some ft => [ft]
     | none => [])
  | (t, ms) :: rest, pending =>
    if shouldUpdate ms then
      match pending with
      | some ft =>
        if ft ≤ t then ft :: debounceScans rest (some (t + debounceWindowMs))
        else debounceScans rest (some (t + debounceWindowMs))
      | none => debounceScans rest (some (t + debounceWindowMs))
    else debounceScans rest pending

/-! ## Watcher resources: `setupNavigationMonitoring` and its disposer -/

/-- The kinds of timers the watcher schedules: the initial-mount settle timer
(line 244), the post-navigation settle timer (line 253), and the mutation
debounce timer (line 318).  Every one of them runs a scan when it fires. -/
inductive TimerKind
  | initialMount
  | urlSettle
  | debounce
deriving DecidableEq

/-- The host resources the watcher touches: the popstate listener, the
monkey-patched history methods, the observer, the pending timer queue
(id, kind), and the `window.aiMapUpdateTimeout` slot, which records the id of
the last debounce timer only. -/
structure WatcherState where
  popstateListener : Bool
  historyPatched : Bool
  observerConnected : Bool
  timers : List (Nat × TimerKind)
  aiMapUpdateTimeout : Option Nat
  nextId : Nat
deriving DecidableEq

/-- The pristine host state before the watcher runs. -/
def watcherInit : WatcherState :=
  { popstateListener := false, historyPatched := false, observerConnected := false,
    timers := [], aiMapUpdateTimeout := none, nextId := 0 }

/-- Every watcher timer's callback performs `captureInteractiveElements` and
`updateComponentMap`, i.e. a scan. -/
def timerRunsScan : TimerKind → Bool
  | _ => true

/-- The resource effects of `setupNavigationMonitoring` (manager, lines
240-331): schedule the initial-mount settle timer — whose id is discarded —
register the popstate listener, patch both history methods, connect the
observer. -/
def setupNavigationMonitoring (st : WatcherState) : WatcherState :=
  { st with
    timers := st.timers ++ [(st.nextId, TimerKind.initialMount)]
    nextId := st.nextId + 1
    popstateListener := true
    historyPatched := true
    observerConnected := true }

/-- The `handleUrlChange` settle timer (line 253): scheduled with its id
discarded. -/
def scheduleUrlSettle (st : WatcherState) : WatcherState :=
  { st with
    timers := st.timers ++ [(st.nextId, TimerKind.urlSettle)]
    nextId := st.nextId + 1 }

/-- The debounce rescheduling of the mutation callback (lines 312-322): clear
the timer recorded in `aiMapUpdateTimeout`, schedule a fresh one, record it. -/
def scheduleDebounce (st : WatcherState) : WatcherState :=
  let cleared := match st.aiMapUpdateTimeout with
    | some i => st.timers.filter fun tk => tk.1 ≠ i
    | none => st.timers
  { st with
    timers := cleared ++ [(st.nextId, TimerKind.debounce)]
    aiMapUpdateTimeout := some st.nextId
    nextId := st.nextId + 1 }

/-- The disposer returned by `setupNavigationMonitoring` (lines 333-341):
remove the listener, restore both history methods, disconnect the observer,
and clear the timer recorded in `aiMapUpdateTimeout` — and only that one. -/
def disposeNavigationMonitoring (st : WatcherState) : WatcherState :=
  { st with
    popstateListener := false
    historyPatched := false
    observerConnected := false
    timers := match st.aiMapUpdateTimeout with
      | some i => st.timers.filter fun tk => tk.1 ≠ i
      | none => st.timers }

/-! ## Concrete environments and nodes used by witnesses and counterexamples -/

/-- A plain browser environment; `elementFromPoint` reports node 1 everywhere. -/
def envW : DomEnv :=
  { windowDefined := true, innerWidth := 1024, innerHeight := 768,
    scrollX := 0, scrollY := 0,
    elementFromPoint := fun _ _ => some 1, contains := fun _ _ => false }

/-- A 10x10 box well inside the viewport. -/
def rectA : Rect :=
  { top := 5, left := 5, bottom := 15, right := 15, width := 10, height := 10 }

/-- A visible, enabled node (node 1, the one `elementFromPoint` reports). -/
def visA : VisElem :=
  { nodeId := 1, display := "block", visibilityStyle := "visible",
    opacityStr := "1", opacityNum := some 1, pointerEvents := "auto",
    rect := rectA, disabledProp := false, ariaDisabled := none, disabledAttr := none }

/-- A node hidden by `display:none`. -/
def visHidden : VisElem :=
  { visA with display := "none" }

/-- Identity fields of a submit button with an explicit id. -/
def gA : GNode :=
  { textContent := some "Submit", id := "submit-btn", ariaLabel := none,
    placeholder := none, nameAttr := none, dataTestId := none,
    tagName := "BUTTON", randSuffix := "q1w2e3" }

/-- Interaction-type fields of that button. -/
def itA : ITNode :=
  { tagName := "BUTTON", typeAttr := none, roleAttr := none,
    hasOnclickLower := false, hasOnclickCamel := false, cursor := "pointer" }

/-- Attribute view of that button. -/
def attrA : AttrView :=
  { tagName := "BUTTON", attrList := [("id", "submit-btn")],
    valueProp := "", typeProp := "", checkedProp := false }

/-- Ancestor chain of that button (it carries an id, so the walk stops at it). -/
def chainA : List DomNode :=
  [{ tagName := "BUTTON", id := "submit-btn", className := none, roleAttr := none,
     sameTagCount := 1, sameTagIndex := 1 }]

/-- The full scanned-element view of the button, with no persisted markers. -/
def capA : CapElem :=
  { vis := visA, g := gA, it := itA, attrView := attrA, chain := chainA,
    dataAiTarget := none, dataAiAction := none, aiComponent := none,
    className := none, hrefAttr := none }

/-- The descriptor the scan builds for `capA` at time 0. -/
def infoA : ElementInfo := mkElementInfo envW 0 capA

/-- A manager mid-capture whose registry already holds one descriptor. -/
def stBusy : CMState :=
  { isCapturing := true, elementRegistry := [("ai-target-submit-btn", infoA)],
    currentUrl := "https://app.example/" }

/-- An idle manager whose registry holds a descriptor of a vanished node. -/
def stStale : CMState :=
  { isCapturing := false, elementRegistry := [("ai-target-stale", infoA)],
    currentUrl := "https://app.example/" }

/-- A node with an id whose casing and punctuation defeat the claimed
normalization: the id branch never lowercases. -/
def gnodeCex3 : GNode :=
  { textContent := none, id := "My.Button", ariaLabel := some "Do it",
    placeholder := none, nameAttr := none, dataTestId := none,
    tagName := "BUTTON", randSuffix := "x1y2z3" }

/-- A node carrying both an explicit id and an aria-label. -/
def gnodeC4 : GNode :=
  { textContent := some "Save", id := "save-doc", ariaLabel := some "Save the Document",
    placeholder := none, nameAttr := none, dataTestId := none,
    tagName := "BUTTON", randSuffix := "a9b8c7" }

/-! # Theorems settling the claims -/

/-- C5: for every node (including the absent node), if `isElementVisible`
returns false then `isElementInteractable` also returns false:
interactability implies visibility. -/
theorem isElementInteractable_implies_visible (env : DomEnv) (oe : Option VisElem)
    (h : isElementVisible env oe = false) : isElementInteractable env oe = false := by
  cases oe with
  | none => rfl
  | some e => simp [isElementInteractable, h]

theorem isElementInteractable_implies_visible_witness :
    isElementVisible envW (some visHidden) = false ∧
    isElementInteractable envW (some visHidden) = false :=
  ⟨by decide, isElementInteractable_implies_visible envW (some visHidden) (by decide)⟩

/-- C9: a call to `captureInteractiveElements` while the `isCapturing` guard is
set performs no scan: the registry and the DOM come back unchanged and the
call returns the current registry's descriptor values. -/
theorem captureInteractiveElements_reentrant (env : DomEnv) (now : Nat)
    (dom : List CapElem) (st : CMState)
    (hw : env.windowDefined = true) (hc : st.isCapturing = true) :
    captureInteractiveElements env now dom st = (st.elementRegistry.map Prod.snd, st, dom) := by
  simp [captureInteractiveElements, hw, hc]

theorem captureInteractiveElements_reentrant_witness :
    captureInteractiveElements envW 7 [capA] stBusy = ([infoA], stBusy, [capA]) :=
  captureInteractiveElements_reentrant envW 7 [capA] stBusy rfl rfl

/-- C10: `hasUrlChanged` reports true exactly when the current URL differs from
the last one it recorded; on a true report it records the new URL, so an
immediately following call with the same URL reports false. -/
theorem hasUrlChanged_consumes (st : CMState) (href : String) :
    ((hasUrlChanged (some href) st).1 = true ↔ st.currentUrl ≠ href) ∧
    ((hasUrlChanged (some href) st).1 = true →
      (hasUrlChanged (some href) st).2.currentUrl = href) ∧
    ((hasUrlChanged (some href) st).1 = true →
      hasUrlChanged (some href) (hasUrlChanged (some href) st).2 =
        (false, (hasUrlChanged (some href) st).2)) := by
  by_cases h : st.currentUrl = href <;> simp [hasUrlChanged, h]

theorem hasUrlChanged_consumes_witness :
    (hasUrlChanged (some "https://app.example/about") stStale).1 = true ∧
    hasUrlChanged (some "https://app.example/about")
        (hasUrlChanged (some "https://app.example/about") stStale).2 =
      (false, (hasUrlChanged (some "https://app.example/about") stStale).2) :=
  ⟨rfl, (hasUrlChanged_consumes stStale "https://app.example/about").2.2 rfl⟩

/-- C8: the sync operations never raise: `fetchComponentMap` returns the empty
baseline on every failure outcome, `updateComponentMap` reports its POST
outcome as a plain boolean (false on network or HTTP failure), and in every
failure case the in-memory registry is exactly the post-capture registry —
never rolled back.  The posted body carries the fresh capture. -/
theorem syncOps_never_raise (env : DomEnv) (now : Nat) (nowIso path : String)
    (getO : GetOutcome) (postO : PostOutcome) (dom : List CapElem) (st : CMState) :
    ((∀ m, getO ≠ GetOutcome.success m) →
      fetchComponentMap nowIso getO = emptyBaseline nowIso) ∧
    ((updateComponentMap env now nowIso path getO postO dom st).1 = true ↔
      postO = PostOutcome.success) ∧
    ((updateComponentMap env now nowIso path getO postO dom st).2.1 =
      (captureInteractiveElements env now dom st).2.1) ∧
    ((updateComponentMap env now nowIso path getO postO dom st).2.2.2.runtimeElements =
      (captureInteractiveElements env now dom st).1) := by
  refine ⟨?_, ?_, ?_, ?_⟩
  · intro h
    cases getO with
    | success m => exact absurd rfl (h m)
    | netError => rfl
    | httpError s => rfl
    | jsonError => rfl
  · cases postO <;> simp [updateComponentMap]
  · cases postO <;> rfl
  · cases postO <;> rfl

theorem syncOps_never_raise_witness :
    fetchComponentMap "t0" GetOutcome.netError = emptyBaseline "t0" ∧
    (updateComponentMap envW 0 "t0" "/" GetOutcome.netError (PostOutcome.httpError 500)
      [] stStale).1 = false ∧
    (updateComponentMap envW 0 "t0" "/" GetOutcome.netError (PostOutcome.httpError 500)
      [] stStale).2.1 = (captureInteractiveElements envW 0 [] stStale).2.1 := by
  refine ⟨(syncOps_never_raise envW 0 "t0" "/" GetOutcome.netError (PostOutcome.httpError 500)
    [] stStale).1 (fun m h => by cases h), ?_, (syncOps_never_raise envW 0 "t0" "/"
    GetOutcome.netError (PostOutcome.httpError 500) [] stStale).2.2.1⟩
  rfl

/-- C4: `generateTargetId` picks the base identifier first-match-wins: id, then
test-id, then aria-label, then name, then placeholder, then short trimmed
text content, then the lowercased-tag random fallback; in particular a node
carrying both an id and an aria-label derives its targetId from the id, the
label being irrelevant. -/
theorem generateTargetId_precedence (n : GNode) :
    (n.id ≠ "" → generateTargetId n = "ai-target-" ++ cleanId n.id) ∧
    (n.id = "" → jsTruthy n.dataTestId = true →
      generateTargetId n = "ai-target-" ++ cleanId (n.dataTestId.getD "")) ∧
    (n.id = "" → jsTruthy n.dataTestId = false → jsTruthy n.ariaLabel = true →
      generateTargetId n = "ai-target-" ++ cleanId (normWsLower (n.ariaLabel.getD ""))) ∧
    (n.id = "" → jsTruthy n.dataTestId = false → jsTruthy n.ariaLabel = false →
      jsTruthy n.nameAttr = true →
      generateTargetId n = "ai-target-" ++ cleanId (n.nameAttr.getD "")) ∧
    (n.id = "" → jsTruthy n.dataTestId = false → jsTruthy n.ariaLabel = false →
      jsTruthy n.nameAttr = false → jsTruthy n.placeholder = true →
      generateTargetId n = "ai-target-" ++ cleanId (normWsLower (n.placeholder.getD ""))) ∧
    (n.id = "" → jsTruthy n.dataTestId = false → jsTruthy n.ariaLabel = false →
      jsTruthy n.nameAttr = false → jsTruthy n.placeholder = false →
      jsTruthy (trimmedText n) = true → ((trimmedText n).getD "").length < 20 →
      generateTargetId n = "ai-target-" ++ cleanId (normWsLower ((trimmedText n).getD ""))) ∧
    (n.id = "" → jsTruthy n.dataTestId = false → jsTruthy n.ariaLabel = false →
      jsTruthy n.nameAttr = false → jsTruthy n.placeholder = false →
      ¬ (jsTruthy (trimmedText n) = true ∧ ((trimmedText n).getD "").length < 20) →
      generateTargetId n = "ai-target-" ++ cleanId (jsToLower n.tagName ++ "-" ++ n.randSuffix)) ∧
    (n.id ≠ "" → generateTargetId n = generateTargetId { n with ariaLabel := none }) := by
  refine ⟨?_, ?_, ?_, ?_, ?_, ?_, ?_, ?_⟩
  · intro h1
    simp [generateTargetId, baseIdOf, h1]
  · intro h1 h2
    simp [generateTargetId, baseIdOf, h1, h2]
  · intro h1 h2 h3
    simp [generateTargetId, baseIdOf, h1, h2, h3]
  · intro h1 h2 h3 h4
    simp [generateTargetId, baseIdOf, h1, h2, h3, h4]
  · intro h1 h2 h3 h4 h5
    simp [generateTargetId, baseIdOf, h1, h2, h3, h4, h5]
  · intro h1 h2 h3 h4 h5 h6 h7
    simp [generateTargetId, baseIdOf, h1, h2, h3, h4, h5, h6, h7]
  · intro h1 h2 h3 h4 h5 h6
    simp only [generateTargetId, baseIdOf, h1, h2, h3, h4, h5]
    rw [if_neg (by simp), if_neg (by simp), if_neg (by simp), if_neg (by simp),
      if_neg (by simp), if_neg h6]
  · intro h1
    simp [generateTargetId, baseIdOf, h1]

theorem generateTargetId_precedence_witness :
    gnodeC4.id ≠ "" ∧ jsTruthy gnodeC4.ariaLabel = true ∧
    generateTargetId gnodeC4 = "ai-target-" ++ cleanId gnodeC4.id ∧
    generateTargetId gnodeC4 = generateTargetId { gnodeC4 with ariaLabel := none } :=
  ⟨by decide, by decide,
    (generateTargetId_precedence gnodeC4).1 (by decide),
    (generateTargetId_precedence gnodeC4).2.2.2.2.2.2.2 (by decide)⟩

/-- The walk of `computePathList` below the first id-bearing ancestor: the
selectors of the id-free prefix are appended, outermost first. -/
theorem computePathList_until_id (pre : List DomNode) (n : DomNode) (rest : List DomNode)
    (hpre : ∀ m ∈ pre, m.id = "") (hn : n.id ≠ "") :
    computePathList (pre ++ n :: rest) = selIdOf n :: (pre.map plainSel).reverse := by
  induction pre with
  | nil => simp [computePathList, hn]
  | cons p ps ih =>
    have hp : p.id = "" := hpre p (by simp)
    have hrec := ih fun m hm => hpre m (by simp [hm])
    simp [computePathList, hp, hrec]

/-- C6: `computeElementPath` walks the ancestor chain upward and terminates at
the first element (the node itself or an ancestor) with a non-empty id: the
first path segment is that element's `tag#id` selector and the path does not
depend on anything above it. -/
theorem computeElementPath_id_terminates (pre : List DomNode) (n : DomNode)
    (rest : List DomNode) (hpre : ∀ m ∈ pre, m.id = "") (hn : n.id ≠ "") :
    computePathList (pre ++ n :: rest) = selIdOf n :: (pre.map plainSel).reverse ∧
    (computePathList (pre ++ n :: rest)).head? = some (selIdOf n) ∧
    computeElementPath (pre ++ n :: rest) = computeElementPath (pre ++ [n]) := by
  have h1 := computePathList_until_id pre n rest hpre hn
  have h2 := computePathList_until_id pre n [] hpre hn
  refine ⟨h1, by rw [h1]; rfl, ?_⟩
  rw [computeElementPath, computeElementPath, h1, h2]

theorem computeElementPath_id_terminates_witness :
    computeElementPath
        [⟨"DIV", "", some "card wide", none, 2, 2⟩,
         ⟨"SECTION", "main", none, some "region", 1, 1⟩,
         ⟨"BODYCHILD", "", none, none, 1, 1⟩] =
      "section#main > div.card.wide:nth-child(2)" ∧
    (computePathList
        [⟨"DIV", "", some "card wide", none, 2, 2⟩,
         ⟨"SECTION", "main", none, some "region", 1, 1⟩,
         ⟨"BODYCHILD", "", none, none, 1, 1⟩]).head? =
      some (selIdOf ⟨"SECTION", "main", none, some "region", 1, 1⟩) := by
  have h := computeElementPath_id_terminates
    [⟨"DIV", "", some "card wide", none, 2, 2⟩]
    ⟨"SECTION", "main", none, some "region", 1, 1⟩
    [⟨"BODYCHILD", "", none, none, 1, 1⟩]
    (by intro m hm; simp at hm; rw [hm]) (by decide)
  exact ⟨by rfl, h.2.1⟩

/-- Unfolding: a qualifying batch with no pending timer schedules at `t + 500`. -/
theorem debounceScans_cons_none (t : Nat) (ms : List MutRec)
    (rest : List (Nat × List MutRec)) (h : shouldUpdate ms = true) :
    debounceScans ((t, ms) :: rest) none =
      debounceScans rest (some (t + debounceWindowMs)) := by
  simp [debounceScans, h]

/-- Unfolding: a qualifying batch arriving while a timer is still pending
(fire time after the batch) cancels it and reschedules at `t + 500`. -/
theorem debounceScans_cons_pending (t ft : Nat) (ms : List MutRec)
    (rest : List (Nat × List MutRec)) (h : shouldUpdate ms = true) (hlt : t < ft) :
    debounceScans ((t, ms) :: rest) (some ft) =
      debounceScans rest (some (t + debounceWindowMs)) := by
  have hle : ¬ ft ≤ t := by omega
  simp [debounceScans, h, hle]

/-- Debounce run lemma: over a block of qualifying batches in which every
batch arrives before the previous batch's timer would fire, the run emits
exactly one scan, scheduled by the final batch — whether the block starts
with no pending timer or with one still pending at the first batch. -/
theorem debounceScans_block (batches : List (Nat × List MutRec))
    (hq : ∀ b ∈ batches, shouldUpdate b.2 = true)
    (hchain : List.Chain' (fun a b => b.1 < a.1 + debounceWindowMs) batches) :
    ∀ tl msl, batches.getLast? = some (tl, msl) →
      debounceScans batches none = [tl + debounceWindowMs] ∧
      ∀ ft t1 ms1, batches.head? = some (t1, ms1) → t1 < ft →
        debounceScans batches (some ft) = [tl + debounceWindowMs] := by
  induction batches with
  | nil => intro tl msl h; cases h
  | cons b rest ih =>
    obtain ⟨t, ms⟩ := b
    intro tl msl hlast
    have hqb : shouldUpdate ms = true := hq (t, ms) (by simp)
    cases rest with
    | nil =>
      simp only [List.getLast?_singleton, Option.some.injEq, Prod.mk.injEq] at hlast
      obtain ⟨h1, h2⟩ := hlast
      subst h1
      subst h2
      refine ⟨by rw [debounceScans_cons_none _ _ _ hqb]; rfl, ?_⟩
      intro ft t1 ms1 hhead hlt
      simp only [List.head?_cons, Option.some.injEq, Prod.mk.injEq] at hhead
      obtain ⟨h1, h2⟩ := hhead
      subst h1
      subst h2
      rw [debounceScans_cons_pending _ _ _ _ hqb hlt]
      rfl
    | cons b2 rest2 =>
      obtain ⟨t2, ms2⟩ := b2
      rw [List.getLast?_cons_cons] at hlast
      have hgap : t2 < t + debounceWindowMs := by
        simpa using (List.chain'_cons.mp hchain).1
      have hch2 : List.Chain' (fun a c => c.1 < a.1 + debounceWindowMs) ((t2, ms2) :: rest2) :=
        (List.chain'_cons.mp hchain).2
      have ihres := ih (fun x hx => hq x (by simp [hx])) hch2 tl msl hlast
      have hsome : debounceScans ((t2, ms2) :: rest2) (some (t + debounceWindowMs)) =
          [tl + debounceWindowMs] :=
        ihres.2 (t + debounceWindowMs) t2 ms2 (by simp) hgap
      refine ⟨?_, ?_⟩
      · rw [debounceScans_cons_none _ _ _ hqb]
        exact hsome
      · intro ft t1 ms1 hhead hlt
        simp only [List.head?_cons, Option.some.injEq, Prod.mk.injEq] at hhead
        obtain ⟨h1, h2⟩ := hhead
        subst h1
        subst h2
        rw [debounceScans_cons_pending _ _ _ _ hqb hlt]
        exact hsome

/-- C7: qualifying mutation batches are coalesced by trailing-edge debounce
with the fixed 500 ms window: when every batch of a burst arrives within the
window opened by its predecessor, exactly one scan results, executed one
debounce window after the last batch. -/
theorem mutation_debounce_coalesces (batches : List (Nat × List MutRec))
    (tl : Nat) (msl : List MutRec)
    (hq : ∀ b ∈ batches, shouldUpdate b.2 = true)
    (hchain : List.Chain' (fun a b => b.1 < a.1 + debounceWindowMs) batches)
    (hlast : batches.getLast? = some (tl, msl)) :
    debounceScans batches none = [tl + debounceWindowMs] :=
  (debounceScans_block batches hq hchain tl msl hlast).1

/-- A qualifying mutation batch: one attribute change on a matching element. -/
def qualBatch : List MutRec := [MutRec.attributes true true]

/-- Ten qualifying batches, 100 ms apart: one burst inside the window. -/
def burst10 : List (Nat × List MutRec) :=
  [(0, qualBatch), (100, qualBatch), (200, qualBatch), (300, qualBatch),
   (400, qualBatch), (500, qualBatch), (600, qualBatch), (700, qualBatch),
   (800, qualBatch), (900, qualBatch)]

theorem mutation_debounce_coalesces_witness :
    debounceScans burst10 none = [900 + debounceWindowMs] :=
  mutation_debounce_coalesces burst10 900 qualBatch
    (by decide) (by simp [burst10, List.chain'_cons, debounceWindowMs]) (by decide)

/-- Every character surviving the disallowed-character replacement matches the
kept class (which includes uppercase letters, because of the `i` flag). -/
theorem mem_mapDisallowed (l : List Char) : ∀ c ∈ mapDisallowed l, allowedChar c = true := by
  intro c hc
  simp only [mapDisallowed, List.mem_map] at hc
  obtain ⟨a, _, ha⟩ := hc
  by_cases h : allowedChar a = true
  · rw [← ha, if_pos h]
    exact h
  · rw [← ha, if_neg h]
    decide

/-- Collapsing hyphen runs never changes the first character. -/
theorem collapseHyphens_head (xs : List Char) :
    ∀ x, (collapseHyphens (x :: xs)).head? = some x := by
  induction xs with
  | nil => intro x; rfl
  | cons y r ih =>
    intro x
    cases hb : (x = '-' && y = '-') with
    | false => simp [collapseHyphens, hb]
    | true =>
      rw [Bool.and_eq_true] at hb
      have hx : x = '-' := by simpa using hb.1
      have hy : y = '-' := by simpa using hb.2
      have h1 : collapseHyphens (x :: y :: r) = collapseHyphens (y :: r) := by
        simp [collapseHyphens, hx, hy]
      rw [h1, ih y, hy, hx]

/-- Collapsing hyphen runs only removes characters. -/
theorem collapseHyphens_subset (l : List Char) : ∀ c ∈ collapseHyphens l, c ∈ l := by
  induction l with
  | nil => simp [collapseHyphens]
  | cons x xs ih =>
    cases xs with
    | nil => simp [collapseHyphens]
    | cons y r =>
      intro c hc
      cases hb : (x = '-' && y = '-') with
      | false =>
        rw [show collapseHyphens (x :: y :: r) = x :: collapseHyphens (y :: r) from by
          simp [collapseHyphens, hb]] at hc
        rcases List.mem_cons.mp hc with h | h
        · simp [h]
        · exact List.mem_cons_of_mem x (ih c h)
      | true =>
        rw [show collapseHyphens (x :: y :: r) = collapseHyphens (y :: r) from by
          simp [collapseHyphens, hb]] at hc
        exact List.mem_cons_of_mem x (ih c hc)

/-- After collapsing, no two adjacent characters are both hyphens. -/
theorem collapseHyphens_chain (l : List Char) :
    List.Chain' (fun a b => ¬(a = '-' ∧ b = '-')) (collapseHyphens l) := by
  induction l with
  | nil => simp [collapseHyphens]
  | cons x xs ih =>
    cases xs with
    | nil => simp [collapseHyphens]
    | cons y r =>
      cases hb : (x = '-' && y = '-') with
      | false =>
        rw [show collapseHyphens (x :: y :: r) = x :: collapseHyphens (y :: r) from by
          simp [collapseHyphens, hb]]
        refine List.chain'_cons'.mpr ⟨?_, ih⟩
        intro z hz
        rw [collapseHyphens_head r y] at hz
        have hzy : z = y := by simpa using hz.symm
        subst hzy
        intro hcon
        rw [hcon.1, hcon.2] at hb
        simp at hb
      | true =>
        rw [show collapseHyphens (x :: y :: r) = collapseHyphens (y :: r) from by
          simp [collapseHyphens, hb]]
        exact ih

/-- Dropping one leading hyphen only removes a character. -/
theorem dropLeadHyphen_subset (l : List Char) : ∀ c ∈ dropLeadHyphen l, c ∈ l := by
  cases l with
  | nil => simp [dropLeadHyphen]
  | cons x xs =>
    by_cases h : x = '-' <;> intro c hc <;> simp [dropLeadHyphen, h] at hc
    · simp [hc]
    · rcases hc with h1 | h1 <;> simp [h1]

/-- Dropping one leading hyphen preserves any adjacency invariant. -/
theorem dropLeadHyphen_chain {P : Char → Char → Prop} (l : List Char)
    (h : List.Chain' P l) : List.Chain' P (dropLeadHyphen l) := by
  cases l with
  | nil => exact h
  | cons x xs =>
    by_cases hx : x = '-'
    · rw [show dropLeadHyphen (x :: xs) = xs from by simp [dropLeadHyphen, hx]]
      exact h.tail
    · rwa [show dropLeadHyphen (x :: xs) = x :: xs from by simp [dropLeadHyphen, hx]]

/-- After collapsing runs, dropping one leading hyphen leaves a list that does
not start with a hyphen. -/
theorem dropLeadHyphen_head (l : List Char)
    (h : List.Chain' (fun a b => ¬(a = '-' ∧ b = '-')) l) :
    ∀ c, (dropLeadHyphen l).head? = some c → c ≠ '-' := by
  cases l with
  | nil => intro c hc; cases hc
  | cons x xs =>
    by_cases hx : x = '-'
    · rw [show dropLeadHyphen (x :: xs) = xs from by simp [dropLeadHyphen, hx]]
      cases xs with
      | nil => intro c hc; cases hc
      | cons y r =>
        intro c hc
        have hcy : c = y := by simpa using hc.symm
        subst hcy
        have hxy := (List.chain'_cons.mp h).1
        intro hcEq
        exact hxy ⟨hx, hcEq⟩
    · rw [show dropLeadHyphen (x :: xs) = x :: xs from by simp [dropLeadHyphen, hx]]
      intro c hc
      have : c = x := by simpa using hc.symm
      subst this
      exact hx

/-- Dropping one trailing hyphen only removes a character. -/
theorem dropTrailHyphen_subset (l : List Char) : ∀ c ∈ dropTrailHyphen l, c ∈ l := by
  induction l with
  | nil => simp [dropTrailHyphen]
  | cons x xs ih =>
    cases xs with
    | nil =>
      by_cases h : x = '-' <;> simp [dropTrailHyphen, h]
    | cons y r =>
      intro c hc
      rw [show dropTrailHyphen (x :: y :: r) = x :: dropTrailHyphen (y :: r) from rfl] at hc
      rcases List.mem_cons.mp hc with h | h
      · simp [h]
      · exact List.mem_cons_of_mem x (ih c h)

/-- Dropping one trailing hyphen leaves the head unchanged (or empties the list). -/
theorem dropTrailHyphen_head (l : List Char) :
    (dropTrailHyphen l).head? = none ∨ (dropTrailHyphen l).head? = l.head? := by
  cases l with
  | nil => left; rfl
  | cons x xs =>
    cases xs with
    | nil =>
      by_cases h : x = '-'
      · left
        simp [dropTrailHyphen, h]
      · right
        simp [dropTrailHyphen, h]
    | cons y r => right; rfl

/-- Dropping one trailing hyphen preserves any adjacency invariant. -/
theorem dropTrailHyphen_chain {P : Char → Char → Prop} (l : List Char)
    (h : List.Chain' P l) : List.Chain' P (dropTrailHyphen l) := by
  induction l with
  | nil => simp [dropTrailHyphen]
  | cons x xs ih =>
    cases xs with
    | nil =>
      by_cases hx : x = '-' <;> simp [dropTrailHyphen, hx]
    | cons y r =>
      rw [show dropTrailHyphen (x :: y :: r) = x :: dropTrailHyphen (y :: r) from rfl]
      obtain ⟨hxy, htail⟩ := List.chain'_cons.mp h
      refine List.chain'_cons'.mpr ⟨?_, ih htail⟩
      intro z hz
      rcases dropTrailHyphen_head (y :: r) with hn | hh
      · rw [hn] at hz
        cases hz
      · rw [hh] at hz
        have hzy : z = y := by simpa using hz.symm
        subst hzy
        exact hxy

/-- After collapsing runs, dropping one trailing hyphen leaves a list that
does not end with a hyphen. -/
theorem dropTrailHyphen_getLast (l : List Char)
    (h : List.Chain' (fun a b => ¬(a = '-' ∧ b = '-')) l) :
    ∀ c, (dropTrailHyphen l).getLast? = some c → c ≠ '-' := by
  induction l with
  | nil => intro c hc; cases hc
  | cons x xs ih =>
    cases xs with
    | nil =>
      intro c hc
      by_cases hx : x = '-'
      · rw [show dropTrailHyphen [x] = [] from by simp [dropTrailHyphen, hx]] at hc
        cases hc
      · rw [show dropTrailHyphen [x] = [x] from by simp [dropTrailHyphen, hx]] at hc
        have : c = x := by simpa using hc.symm
        subst this
        exact hx
    | cons y r =>
      intro c hc
      obtain ⟨hxy, htail⟩ := List.chain'_cons.mp h
      rw [show dropTrailHyphen (x :: y :: r) = x :: dropTrailHyphen (y :: r) from rfl] at hc
      cases hd : dropTrailHyphen (y :: r) with
      | nil =>
        rw [hd] at hc
        have hcx : c = x := by simpa using hc.symm
        subst hcx
        have hy : y = '-' := by
          cases r with
          | nil =>
            by_cases hy : y = '-'
            · exact hy
            · rw [show dropTrailHyphen [y] = [y] from by simp [dropTrailHyphen, hy]] at hd
              cases hd
          | cons z s =>
            rw [show dropTrailHyphen (y :: z :: s) = y :: dropTrailHyphen (z :: s) from rfl]
              at hd
            cases hd
        intro hx
        exact hxy ⟨hx, hy⟩
      | cons w ws =>
        rw [hd, List.getLast?_cons_cons] at hc
        exact ih htail c (by rw [hd]; exact hc)

/-- The cleanup chain of `generateTargetId` produces a slug whose characters
all match the kept class, with no adjacent hyphens, and with no leading or
trailing hyphen. -/
theorem cleanChars_props (l : List Char) :
    (∀ c ∈ cleanChars l, allowedChar c = true) ∧
    List.Chain' (fun a b => ¬(a = '-' ∧ b = '-')) (cleanChars l) ∧
    (∀ c, (cleanChars l).head? = some c → c ≠ '-') ∧
    (∀ c, (cleanChars l).getLast? = some c → c ≠ '-') := by
  have hchainC := collapseHyphens_chain (mapDisallowed l)
  have hchainL := dropLeadHyphen_chain _ hchainC
  refine ⟨?_, dropTrailHyphen_chain _ hchainL, ?_, ?_⟩
  · intro c hc
    exact mem_mapDisallowed l c
      (collapseHyphens_subset _ c (dropLeadHyphen_subset _ c (dropTrailHyphen_subset _ c hc)))
  · intro c hc
    simp only [cleanChars] at hc
    rcases dropTrailHyphen_head (dropLeadHyphen (collapseHyphens (mapDisallowed l)))
      with hn | hh
    · rw [hn] at hc
      cases hc
    · rw [hh] at hc
      exact dropLeadHyphen_head _ hchainC c hc
  · intro c hc
    simp only [cleanChars] at hc
    exact dropTrailHyphen_getLast _ hchainL c hc

/-- C3 counterexample: for a node whose id branch supplies the base, the
returned slug is NOT fully normalized as claimed — `My.Button` keeps its
uppercase letters (the cleanup regex is case-insensitive and no `toLowerCase`
is applied on this branch) and the `.` is replaced by a hyphen rather than
stripped, so neither claimed normal form is produced. -/
theorem generateTargetId_not_lowercased :
    generateTargetId gnodeCex3 = "ai-target-My-Button" ∧
    generateTargetId gnodeCex3 ≠ "ai-target-my-button" ∧
    generateTargetId gnodeCex3 ≠ "ai-target-mybutton" := by
  refine ⟨by decide, by decide, by decide⟩

/-- C3 amended: whatever precedence branch supplies the base identifier, the
slug after the `ai-target-` prefix is the cleanup of that base — whitespace
and every character outside `[a-z0-9-_]` (case-insensitively, so uppercase
letters survive) replaced by hyphens, hyphen runs collapsed, leading and
trailing hyphen trimmed; lowercasing happens only inside the aria-label,
placeholder and text branches of the base itself. -/
theorem generateTargetId_normalized (n : GNode) :
    generateTargetId n = "ai-target-" ++ cleanId (baseIdOf n) ∧
    (∀ c ∈ (cleanId (baseIdOf n)).data, allowedChar c = true) ∧
    List.Chain' (fun a b => ¬(a = '-' ∧ b = '-')) (cleanId (baseIdOf n)).data ∧
    (∀ c, (cleanId (baseIdOf n)).data.head? = some c → c ≠ '-') ∧
    (∀ c, (cleanId (baseIdOf n)).data.getLast? = some c → c ≠ '-') := by
  have h := cleanChars_props (baseIdOf n).data
  exact ⟨rfl, h.1, h.2.1, h.2.2.1, h.2.2.2⟩

theorem generateTargetId_normalized_witness :
    generateTargetId gnodeC4 = "ai-target-" ++ cleanId (baseIdOf gnodeC4) ∧
    allowedChar 's' = true ∧ ('s' : Char) ≠ '-' :=
  ⟨(generateTargetId_normalized gnodeC4).1,
   (generateTargetId_normalized gnodeC4).2.1 's' (by decide),
   (generateTargetId_normalized gnodeC4).2.2.2.1 's' (by decide)⟩

/-- A key present before a JS-object assignment is still present after it. -/
theorem lookup_setKey_isSome {α : Type} (m : List (String × α)) (k k' : String) (v : α)
    (h : (m.lookup k).isSome = true) : ((setKey m k' v).lookup k).isSome = true := by
  induction m with
  | nil => simp [List.lookup] at h
  | cons kv rest ih =>
    obtain ⟨k0, v0⟩ := kv
    by_cases he : k0 = k'
    · subst he
      rw [show setKey ((k0, v0) :: rest) k0 v = (k0, v) :: rest from by simp [setKey]]
      cases hk : (k == k0) with
      | true => simp [List.lookup, hk]
      | false =>
        simp only [List.lookup, hk] at h ⊢
        exact h
    · rw [show setKey ((k0, v0) :: rest) k' v = (k0, v0) :: setKey rest k' v from by
        simp [setKey, he]]
      cases hk : (k == k0) with
      | true => simp [List.lookup, hk]
      | false =>
        simp only [List.lookup, hk] at h ⊢
        exact ih h

/-- The assigned key is present after a JS-object assignment. -/
theorem lookup_setKey_self {α : Type} (m : List (String × α)) (k : String) (v : α) :
    ((setKey m k v).lookup k).isSome = true := by
  induction m with
  | nil => simp [setKey, List.lookup]
  | cons kv rest ih =>
    obtain ⟨k0, v0⟩ := kv
    by_cases he : k0 = k
    · subst he
      rw [show setKey ((k0, v0) :: rest) k0 v = (k0, v) :: rest from by simp [setKey]]
      simp [List.lookup]
    · rw [show setKey ((k0, v0) :: rest) k v = (k0, v0) :: setKey rest k v from by
        simp [setKey, he]]
      have hk : (k == k0) = false := by
        simp only [beq_eq_false_iff_ne, ne_eq]
        intro hke
        exact he hke.symm
      simp only [List.lookup, hk]
      exact ih

/-- A visible, interactable element is captured, keyed by `targetKeyOf`. -/
theorem captureStep_of_qual (env : DomEnv) (now : Nat) (e : CapElem)
    (hv : isElementVisible env (some e.vis) = true)
    (hi : isElementInteractable env (some e.vis) = true) :
    captureStep env now e =
      some (targetKeyOf e, mkElementInfo env now e, writeBackAttrs e) := by
  simp [captureStep, hv, hi]

/-- The capture loop never drops a registry key. -/
theorem captureLoop_registry_mono (env : DomEnv) (now : Nat) :
    ∀ (dom : List CapElem) (accE : List ElementInfo) (reg : List (String × ElementInfo))
      (accD : List CapElem) (k : String), (reg.lookup k).isSome = true →
      (((captureLoop env now dom accE reg accD).2.1).lookup k).isSome = true := by
  intro dom
  induction dom with
  | nil => intro accE reg accD k h; exact h
  | cons e0 rest ih =>
    intro accE reg accD k h
    cases hs : captureStep env now e0 with
    | none =>
      rw [show captureLoop env now (e0 :: rest) accE reg accD =
          captureLoop env now rest accE reg (accD ++ [e0]) from by
        simp [captureLoop, hs]]
      exact ih _ _ _ k h
    | some trip =>
      obtain ⟨k', info, e'⟩ := trip
      rw [show captureLoop env now (e0 :: rest) accE reg accD =
          captureLoop env now rest (accE ++ [info]) (setKey reg k' info) (accD ++ [e']) from by
        simp [captureLoop, hs]]
      exact ih _ _ _ k (lookup_setKey_isSome reg k k' info h)

/-- Every qualifying element of the scanned list ends up in the registry. -/
theorem captureLoop_adds (env : DomEnv) (now : Nat) :
    ∀ (dom : List CapElem) (accE : List ElementInfo) (reg : List (String × ElementInfo))
      (accD : List CapElem) (e : CapElem), e ∈ dom →
      isElementVisible env (some e.vis) = true →
      isElementInteractable env (some e.vis) = true →
      (((captureLoop env now dom accE reg accD).2.1).lookup (targetKeyOf e)).isSome = true := by
  intro dom
  induction dom with
  | nil => intro accE reg accD e he _ _; cases he
  | cons e0 rest ih =>
    intro accE reg accD e he hv hi
    rcases List.mem_cons.mp he with heq | hmem
    · subst heq
      rw [show captureLoop env now (e :: rest) accE reg accD =
          captureLoop env now rest (accE ++ [mkElementInfo env now e])
            (setKey reg (targetKeyOf e) (mkElementInfo env now e))
            (accD ++ [writeBackAttrs e]) from by
        simp [captureLoop, captureStep_of_qual env now e hv hi]]
      exact captureLoop_registry_mono env now rest _ _ _ _
        (lookup_setKey_self reg (targetKeyOf e) (mkElementInfo env now e))
    · cases hs : captureStep env now e0 with
      | none =>
        rw [show captureLoop env now (e0 :: rest) accE reg accD =
            captureLoop env now rest accE reg (accD ++ [e0]) from by
          simp [captureLoop, hs]]
        exact ih _ _ _ e hmem hv hi
      | some trip =>
        obtain ⟨k', info, e'⟩ := trip
        rw [show captureLoop env now (e0 :: rest) accE reg accD =
            captureLoop env now rest (accE ++ [info]) (setKey reg k' info)
              (accD ++ [e']) from by
          simp [captureLoop, hs]]
        exact ih _ _ _ e hmem hv hi

/-- C1 amended: a completed scan adds or refreshes a descriptor for every
qualifying node it observed, keyed by its targetId, and retains every
descriptor already in the registry — non-qualifying descriptors are NOT
purged by the scan; only `resetElementRegistry` removes them. -/
theorem capture_registry_accumulates (env : DomEnv) (now : Nat) (dom : List CapElem)
    (st : CMState) (hw : env.windowDefined = true) (hc : st.isCapturing = false) :
    (∀ k, (st.elementRegistry.lookup k).isSome = true →
      (((captureInteractiveElements env now dom st).2.1.elementRegistry).lookup k).isSome
        = true) ∧
    (∀ e ∈ dom, isElementVisible env (some e.vis) = true →
      isElementInteractable env (some e.vis) = true →
      (((captureInteractiveElements env now dom st).2.1.elementRegistry).lookup
        (targetKeyOf e)).isSome = true) := by
  have hreg : (captureInteractiveElements env now dom st).2.1.elementRegistry =
      (captureLoop env now dom [] st.elementRegistry []).2.1 := by
    simp [captureInteractiveElements, hw, hc]
  constructor
  · intro k h
    rw [hreg]
    exact captureLoop_registry_mono env now dom _ _ _ k h
  · intro e he hv hi
    rw [hreg]
    exact captureLoop_adds env now dom _ _ _ e he hv hi

theorem capture_registry_accumulates_witness :
    (((captureInteractiveElements envW 3 [capA] stStale).2.1.elementRegistry).lookup
      "ai-target-stale").isSome = true ∧
    (((captureInteractiveElements envW 3 [capA] stStale).2.1.elementRegistry).lookup
      (targetKeyOf capA)).isSome = true :=
  ⟨(capture_registry_accumulates envW 3 [capA] stStale rfl rfl).1 "ai-target-stale" rfl,
   (capture_registry_accumulates envW 3 [capA] stStale rfl rfl).2 capA (by simp)
     (by decide) (by decide)⟩

/-- C1 counterexample: a scan that observes no qualifying node at all (empty
selector result) leaves a stale descriptor in the registry, although the
claim requires it to be removed. -/
theorem capture_retains_stale_descriptor :
    (captureInteractiveElements envW 0 [] stStale).1 = [] ∧
    ((captureInteractiveElements envW 0 [] stStale).2.1.elementRegistry).lookup
      "ai-target-stale" = some infoA :=
  ⟨rfl, rfl⟩

/-- C2 amended: the disposer removes the popstate listener, restores the
history methods, disconnects the observer, and clears the debounce timer
recorded in `window.aiMapUpdateTimeout` — but that is the only timer it
clears: the initial-mount settle timer (and likewise the navigation settle
timers), whose ids are discarded at scheduling, survive disposal and still
run a scan when they fire. -/
theorem dispose_releases_resources (st : WatcherState) :
    (disposeNavigationMonitoring st).popstateListener = false ∧
    (disposeNavigationMonitoring st).historyPatched = false ∧
    (disposeNavigationMonitoring st).observerConnected = false ∧
    (∀ i, st.aiMapUpdateTimeout = some i →
      ((disposeNavigationMonitoring st).timers.all fun tk => decide (tk.1 ≠ i)) = true) ∧
    (st.aiMapUpdateTimeout = none →
      (disposeNavigationMonitoring (setupNavigationMonitoring st)).timers =
        st.timers ++ [(st.nextId, TimerKind.initialMount)]) := by
  refine ⟨rfl, rfl, rfl, ?_, ?_⟩
  · intro i hi
    simp only [disposeNavigationMonitoring, hi]
    simp [List.all_eq_true, List.mem_filter]
  · intro h
    simp [disposeNavigationMonitoring, setupNavigationMonitoring, h]

theorem dispose_releases_resources_witness :
    (disposeNavigationMonitoring (setupNavigationMonitoring watcherInit)).popstateListener
      = false ∧
    ((disposeNavigationMonitoring (scheduleDebounce watcherInit)).timers.all
      fun tk => decide (tk.1 ≠ 0)) = true ∧
    (disposeNavigationMonitoring (setupNavigationMonitoring watcherInit)).timers =
      watcherInit.timers ++ [(watcherInit.nextId, TimerKind.initialMount)] :=
  ⟨(dispose_releases_resources (setupNavigationMonitoring watcherInit)).1,
   (dispose_releases_resources (scheduleDebounce watcherInit)).2.2.2.1 0 rfl,
   (dispose_releases_resources watcherInit).2.2.2.2 rfl⟩

/-- C2 counterexample: invoking the disposer immediately after setup leaves
the initial-mount settle timer pending — a timer the watcher scheduled whose
callback performs a scan — contradicting the claim that after disposal every
pending watcher timer is cleared and no further scan occurs. -/
theorem dispose_misses_initial_timer :
    (disposeNavigationMonitoring (setupNavigationMonitoring watcherInit)).timers =
      [(0, TimerKind.initialMount)] ∧
    ((disposeNavigationMonitoring (setupNavigationMonitoring watcherInit)).timers.any
      fun tk => timerRunsScan tk.2) = true :=
  ⟨rfl, rfl⟩
